import Mathlib

/-!
Shallow embedding of `config/config.go` from conduit-connector-materialize:
the `Config` struct, its `Validate` method (go-playground validator with
custom translated messages, aggregated with multierr) and `Parse`.
-/

namespace Materialize

/-- ConfigKeyURL is the config name for a connection URL. -/
def ConfigKeyURL : String := "url"

/-- ConfigKeyTable is the config name for a table. -/
def ConfigKeyTable : String := "table"

/-- ConfigKeyKey is the config name for a key. -/
def ConfigKeyKey : String := "key"

/-- Config represents configuration needed for Materialize.
Fields in Go declaration order: URL (tags `required,url`), Table (`max=63`), Key (`max=63`). -/
structure Config where
  URL : String
  Table : String
  Key : String
deriving Repr, DecidableEq

/-- Validation tags attached to the Config fields. -/
inductive Tag where
  | required
  | url
  | max
deriving Repr, DecidableEq

/-- Translation key used by the code for each tag. -/
def tagKey : Tag → String
  | .required => "required"
  | .url => "url"
  | .max => "max"

/-- Scheme characters admitted by standard URL grammar. -/
def isSchemeChar (c : Char) : Bool :=
  c.isAlphanum || c == '+' || c == '-' || c == '.'

/-- Splits a character list at the first occurrence of the separator `://`,
returning the part before and the part after, or `none` when absent. -/
def breakOnSep : List Char → Option (List Char × List Char)
  | a :: b :: c :: rest =>
      if a = ':' && b = '/' && c = '/' then some ([], rest)
      else
        match breakOnSep (b :: c :: rest) with
        | some (pre, post) => some (a :: pre, post)
        | none => none
  | _ => none

/-- Modelled from the spec: the validator library's `url` tag is not in src/;
per the spec a value passes iff it parses as a syntactically valid URL
(scheme + structure per standard URL grammar): a non-empty scheme of scheme
characters, a `://` separator, a non-empty remainder, and no spaces. -/
def isValidURL (s : String) : Bool :=
  match breakOnSep s.data with
  | some (scheme, rest) =>
      !scheme.isEmpty && scheme.all isSchemeChar &&
      !rest.isEmpty && !(s.data.any (fun c => c == ' '))
  | none => false

/-- Field errors produced by `validate.Struct(c)`: fields are visited in struct
declaration order (URL, Table, Key); within one field the tags are evaluated
left to right and evaluation of that field stops at the first failing tag
(so an empty URL reports `required`, never `url`).  `required` fails on the
empty string; `max=63` fails when the rune count exceeds 63. -/
def fieldErrors (c : Config) : List (String × Tag) :=
  (if c.URL = "" then [("URL", Tag.required)]
   else if isValidURL c.URL then [] else [("URL", Tag.url)]) ++
  (if c.Table.length ≤ 63 then [] else [("Table", Tag.max)]) ++
  (if c.Key.length ≤ 63 then [] else [("Key", Tag.max)])

/-- Modelled from the spec: the universal-translator instance, reduced to its
store of registered translations (key ↦ template). -/
structure TranslatorState where
  translations : List (String × String)
deriving Repr, DecidableEq

/-- Modelled from the spec: `ut.Add(key, text, override)` — registers a
template, failing only when the key already exists and override is false. -/
def TranslatorState.add (tr : TranslatorState) (key text : String)
    (override : Bool) : Except String TranslatorState :=
  if !override && (tr.translations.lookup key).isSome then
    .error ("conflicting key " ++ key)
  else
    .ok ⟨(key, text) :: tr.translations⟩

/-- The left-brace character. -/
def lbrace : Char := Char.ofNat 123

/-- The right-brace character. -/
def rbrace : Char := Char.ofNat 125

/-- Replaces every occurrence of the placeholder `\x7b0\x7d` in the template
(second argument) by the parameter (first argument). -/
def substParamAux (param : List Char) : List Char → List Char
  | a :: b :: c :: rest =>
      if a = lbrace && b = '0' && c = rbrace then param ++ substParamAux param rest
      else a :: substParamAux param (b :: c :: rest)
  | l => l

/-- Modelled from the spec: `ut.T(key, param)` — renders the registered
template for `key` with the placeholder `\x7b0\x7d` replaced by `param`; an
unknown key renders as the empty string (the code discards the accompanying
error). -/
def TranslatorState.T (tr : TranslatorState) (key param : String) : String :=
  match tr.translations.lookup key with
  | some template => ⟨substParamAux param.data template.data⟩
  | none => ""

/-- ASCII lowercasing, as `strings.ToLower` acts on the ASCII messages built
here. -/
def toLowerStr (s : String) : String :=
  ⟨s.data.map Char.toLower⟩

/-- Modelled from the spec: the supported locales of
`ut.New(en.New(), en.New())` — just "en". -/
def universalLocales : List String := ["en"]

/-- Modelled from the spec: `uni.GetTranslator(locale)` succeeds exactly for a
supported locale, yielding a translator with an empty store. -/
def getTranslator (locale : String) : Option TranslatorState :=
  if universalLocales.contains locale then some ⟨[]⟩ else none

/-- registerTranslations registers custom translations (error messages) for
validation errors: templates for the `required`, `url` and `max` tags,
each added with override = true. -/
def registerTranslations (tr : TranslatorState) : Except String TranslatorState := do
  let tr ← tr.add "required" "\"{0}\" config value must be set" true
  let tr ← tr.add "url" "\"{0}\" config value must be a valid url" true
  let tr ← tr.add "max" "\"{0}\" config value is too long" true
  return tr

/-- Translation of one field error, as the registered translation functions do:
`strings.ToLower(ut.T(tag, fe.Field()))`, where `fe.Field()` is the Go struct
field name (`URL`, `Table`, `Key`). -/
def translateFieldError (tr : TranslatorState) (field : String) (tag : Tag) : String :=
  toLowerStr (tr.T (tagKey tag) field)

/-- Aggregation done by `multierr.Append` / `Error()`: a single error is its
own message; several are joined with "; ". -/
def joinErrors : List String → String
  | [] => ""
  | [m] => m
  | m :: rest => m ++ "; " ++ joinErrors rest

/-- Validate validates the Config, mirroring the Go method: obtain the "en"
translator (error if not found), register the translations (propagating any
error), run the struct validation and aggregate all translated violation
messages into one error.  `none` means no error. -/
def Config.Validate (c : Config) : Option String :=
  match getTranslator "en" with
  | none => some "translator not found"
  | some uniTranslator =>
    match registerTranslations uniTranslator with
    | .error e => some e
    | .ok tr =>
      match (fieldErrors c).map (fun fe => translateFieldError tr fe.1 fe.2) with
      | [] => none
      | msgs => some (joinErrors msgs)

/-- Raw input: a string-to-string mapping; a missing key reads as "". -/
def getKey (cfg : List (String × String)) (k : String) : String :=
  match cfg.lookup k with
  | some v => v
  | none => ""

/-- The Config value Parse builds from the raw mapping. -/
def rawConfig (cfg : List (String × String)) : Config :=
  ⟨getKey cfg ConfigKeyURL, getKey cfg ConfigKeyTable, getKey cfg ConfigKeyKey⟩

/-- Parse attempts to parse a raw mapping into a Config struct: build the
record from the three recognized keys, validate it, and on failure return the
zero Config together with the error (Go returns `(Config{}, err)`). -/
def Parse (cfg : List (String × String)) : Config × Option String :=
  let config := rawConfig cfg
  match config.Validate with
  | some e => (⟨"", "", ""⟩, some e)
  | none => (config, none)

/-- Space-trimming of a string, used to state the spec's
"trimmed raw input values". -/
def trimStr (s : String) : String :=
  ⟨((s.data.dropWhile (fun c => c == ' ')).reverse.dropWhile (fun c => c == ' ')).reverse⟩

/-- Substring containment on strings, via the infix relation on their
character data. -/
def ContainsSubstr (s sub : String) : Prop :=
  sub.data <:+: s.data

instance (s sub : String) : Decidable (ContainsSubstr s sub) :=
  inferInstanceAs (Decidable (sub.data <:+: s.data))

/-- The translator store as it stands after `registerTranslations` succeeds on
the fresh "en" translator. -/
def theTranslator : TranslatorState :=
  ⟨[("max", "\"{0}\" config value is too long"),
    ("url", "\"{0}\" config value must be a valid url"),
    ("required", "\"{0}\" config value must be set")]⟩

/-- The translated violation messages of a Config, in the order the validator
reports them. -/
def violationMessages (c : Config) : List String :=
  (fieldErrors c).map (fun fe => translateFieldError theTranslator fe.1 fe.2)

/-- The rules-only validation result: no error when there is no violation,
otherwise the aggregate of all violation messages. -/
def validateRules (c : Config) : Option String :=
  match violationMessages c with
  | [] => none
  | msgs => some (joinErrors msgs)

/-- The violation message for an empty URL. -/
def msgRequiredURL : String := "\"url\" config value must be set"

/-- The violation message for a malformed URL. -/
def msgInvalidURL : String := "\"url\" config value must be a valid url"

/-- The violation message for a Table longer than 63 characters. -/
def msgTooLongTable : String := "\"table\" config value is too long"

/-- The violation message for a Key longer than 63 characters. -/
def msgTooLongKey : String := "\"key\" config value is too long"

/-- Reason text of each tag, as the spec names them. -/
def reasonFor : Tag → String
  | .required => "must be set"
  | .url => "must be a valid url"
  | .max => "is too long"

@[simp] theorem translate_URL_required :
    translateFieldError theTranslator "URL" Tag.required = msgRequiredURL := by decide

@[simp] theorem translate_URL_url :
    translateFieldError theTranslator "URL" Tag.url = msgInvalidURL := by decide

@[simp] theorem translate_Table_max :
    translateFieldError theTranslator "Table" Tag.max = msgTooLongTable := by decide

@[simp] theorem translate_Key_max :
    translateFieldError theTranslator "Key" Tag.max = msgTooLongKey := by decide

/-- Validate reduces to the rules-only result: the translator lookup and the
translation registration never take their error branches. -/
theorem Validate_eq (c : Config) : c.Validate = validateRules c := rfl

/-- The rules-only result as an if on emptiness of the message list. -/
theorem validateRules_eq (c : Config) :
    validateRules c =
      if violationMessages c = [] then none
      else some (joinErrors (violationMessages c)) := by
  unfold validateRules
  cases violationMessages c <;> simp

/-- Every field error is one of the four possible (field, tag) pairs. -/
theorem mem_fieldErrors (c : Config) {fe : String × Tag} (h : fe ∈ fieldErrors c) :
    fe ∈ [("URL", Tag.required), ("URL", Tag.url), ("Table", Tag.max), ("Key", Tag.max)] := by
  by_cases h1 : c.URL = "" <;> by_cases h2 : isValidURL c.URL <;>
    by_cases h3 : c.Table.length ≤ 63 <;> by_cases h4 : c.Key.length ≤ 63 <;>
    simp_all [fieldErrors] <;> tauto

theorem map_translate_url_part (c : Config) :
    List.map (fun fe => translateFieldError theTranslator fe.1 fe.2)
      (if c.URL = "" then [("URL", Tag.required)]
       else if isValidURL c.URL then [] else [("URL", Tag.url)]) =
      (if c.URL = "" then [msgRequiredURL]
       else if isValidURL c.URL then [] else [msgInvalidURL]) := by
  split
  · simp
  · split <;> simp

theorem map_translate_table_part (c : Config) :
    List.map (fun fe => translateFieldError theTranslator fe.1 fe.2)
      (if c.Table.length ≤ 63 then [] else [("Table", Tag.max)]) =
      (if c.Table.length ≤ 63 then [] else [msgTooLongTable]) := by
  split <;> simp

theorem map_translate_key_part (c : Config) :
    List.map (fun fe => translateFieldError theTranslator fe.1 fe.2)
      (if c.Key.length ≤ 63 then [] else [("Key", Tag.max)]) =
      (if c.Key.length ≤ 63 then [] else [msgTooLongKey]) := by
  split <;> simp

/-- The violation messages, spelled out per rule. -/
theorem violationMessages_eq (c : Config) :
    violationMessages c =
      (if c.URL = "" then [msgRequiredURL]
       else if isValidURL c.URL then [] else [msgInvalidURL]) ++
      (if c.Table.length ≤ 63 then [] else [msgTooLongTable]) ++
      (if c.Key.length ≤ 63 then [] else [msgTooLongKey]) := by
  unfold violationMessages fieldErrors
  rw [List.map_append, List.map_append, map_translate_url_part,
    map_translate_table_part, map_translate_key_part]

/-- Every message of the list is a substring of their multierr aggregation. -/
theorem contains_joinErrors {m : String} :
    ∀ {msgs : List String}, m ∈ msgs → ContainsSubstr (joinErrors msgs) m := by
  intro msgs
  induction msgs with
  | nil => intro h; exact absurd h (List.not_mem_nil m)
  | cons x rest ih =>
    intro h
    cases rest with
    | nil =>
      have hm : m = x := by simpa using h
      subst hm
      exact ⟨[], [], by simp [joinErrors]⟩
    | cons y rest2 =>
      rcases List.mem_cons.mp h with hx | hmem
      · subst hx
        refine ⟨[], ("; " ++ joinErrors (y :: rest2)).data, ?_⟩
        simp [joinErrors, String.data_append]
      · obtain ⟨s, t, hst⟩ := ih hmem
        refine ⟨(x ++ "; ").data ++ s, t, ?_⟩
        have hst2 : s ++ (m.data ++ t) = (joinErrors (y :: rest2)).data := by
          rw [← List.append_assoc]; exact hst
        simp only [joinErrors, String.data_append, List.append_assoc, hst2]

/-- When some message is among the violations, Parse fails and its error text
contains that message. -/
theorem parse_fails_with (cfg : List (String × String)) {m : String}
    (hmem : m ∈ violationMessages (rawConfig cfg)) :
    ∃ e, (Parse cfg).2 = some e ∧ ContainsSubstr e m := by
  have hne : violationMessages (rawConfig cfg) ≠ [] := by
    intro hnil
    rw [hnil] at hmem
    exact absurd hmem (List.not_mem_nil _)
  refine ⟨joinErrors (violationMessages (rawConfig cfg)), ?_, contains_joinErrors hmem⟩
  have hv : (rawConfig cfg).Validate = some (joinErrors (violationMessages (rawConfig cfg))) := by
    rw [Validate_eq, validateRules_eq, if_neg hne]
  simp [Parse, hv]

/-- With no violation, Parse succeeds with the record built from the input. -/
theorem parse_ok (cfg : List (String × String))
    (hnone : violationMessages (rawConfig cfg) = []) :
    Parse cfg = (rawConfig cfg, none) := by
  have hv : (rawConfig cfg).Validate = none := by
    rw [Validate_eq, validateRules_eq, if_pos hnone]
  simp [Parse, hv]

/-- A Config passing all four rules produces no violation message. -/
theorem violationMessages_nil (c : Config) (h1 : c.URL ≠ "")
    (h2 : isValidURL c.URL = true) (h3 : c.Table.length ≤ 63)
    (h4 : c.Key.length ≤ 63) : violationMessages c = [] := by
  rw [violationMessages_eq]
  simp [h1, h2, h3, h4]

/-- C1: for every Config with at least one rule violation, Validate — and
hence Parse — returns a single aggregate error whose text contains the
message of every violated rule, not only the first: violations are collected
per field without short-circuiting across fields. -/
theorem claim1_aggregates_all_violations (c : Config) (h : fieldErrors c ≠ []) :
    ∃ e, c.Validate = some e ∧
      (∀ m ∈ violationMessages c, ContainsSubstr e m) ∧
      (∀ cfg, rawConfig cfg = c → (Parse cfg).2 = some e) := by
  have hne : violationMessages c ≠ [] := by
    simpa [violationMessages] using h
  refine ⟨joinErrors (violationMessages c), ?_, ?_, ?_⟩
  · rw [Validate_eq, validateRules_eq, if_neg hne]
  · intro m hm
    exact contains_joinErrors hm
  · intro cfg hcfg
    have hv : (rawConfig cfg).Validate = some (joinErrors (violationMessages c)) := by
      rw [hcfg, Validate_eq, validateRules_eq, if_neg hne]
    simp [Parse, hv]

/-- C1 witness: url missing and table of length 64. -/
theorem claim1_aggregates_all_violations_witness :
    fieldErrors (Config.mk "" (String.mk (List.replicate 64 'a')) "") ≠ [] ∧
    ∃ e, (Config.mk "" (String.mk (List.replicate 64 'a')) "").Validate = some e ∧
      (∀ m ∈ violationMessages (Config.mk "" (String.mk (List.replicate 64 'a')) ""),
        ContainsSubstr e m) ∧
      (∀ cfg, rawConfig cfg = Config.mk "" (String.mk (List.replicate 64 'a')) "" →
        (Parse cfg).2 = some e) :=
  ⟨by decide, claim1_aggregates_all_violations _ (by decide)⟩

/-- C2 counterexample: at Config ("", "", ""), Validate renders the message
with the field name wrapped in double quotes, so the message equals none of
the nine bare `<field> config value <reason>` strings the claim allows. -/
theorem claim2_counterexample_quoted_field :
    (Config.mk "" "" "").Validate = some "\"url\" config value must be set" ∧
    "\"url\" config value must be set" ∉
      ["url config value must be set", "url config value must be a valid url",
       "url config value is too long",
       "table config value must be set", "table config value must be a valid url",
       "table config value is too long",
       "key config value must be set", "key config value must be a valid url",
       "key config value is too long"] := by decide

/-- C2 (amended): each violation message has exactly the form
`"<field>" config value <reason>` — the field name lowercased and wrapped in
double quotes — where the reason is "must be set" for required,
"must be a valid url" for url and "is too long" for max. -/
theorem claim2_amended_message_form (c : Config) :
    violationMessages c =
      (fieldErrors c).map (fun fe =>
        "\"" ++ toLowerStr fe.1 ++ "\" config value " ++ reasonFor fe.2) := by
  unfold violationMessages
  refine List.map_congr_left ?_
  intro fe hfe
  have h4 := mem_fieldErrors c hfe
  simp only [List.mem_cons, List.not_mem_nil, or_false] at h4
  rcases h4 with rfl | rfl | rfl | rfl <;> decide

/-- C3 counterexample: with url absent the error text is
`"url" config value must be set`, which does not contain the claimed bare
substring `url config value must be set`. -/
theorem claim3_counterexample_quoted_field :
    (Parse []).2 = some "\"url\" config value must be set" ∧
    ¬ ContainsSubstr "\"url\" config value must be set"
        "url config value must be set" := by decide

/-- C3 (amended): for every raw input whose url key is absent or maps to "",
Parse fails and the error text contains `"url" config value must be set`. -/
theorem claim3_amended_required_url (cfg : List (String × String))
    (h : getKey cfg ConfigKeyURL = "") :
    ∃ e, (Parse cfg).2 = some e ∧
      ContainsSubstr e "\"url\" config value must be set" := by
  refine parse_fails_with cfg ?_
  rw [violationMessages_eq]
  have hurl : (rawConfig cfg).URL = "" := h
  simp [hurl, msgRequiredURL]

/-- C3 witness: a raw input without the url key. -/
theorem claim3_amended_required_url_witness :
    getKey [("table", "t")] ConfigKeyURL = "" ∧
    ∃ e, (Parse [("table", "t")]).2 = some e ∧
      ContainsSubstr e "\"url\" config value must be set" :=
  ⟨by decide, claim3_amended_required_url _ (by decide)⟩

/-- C4 counterexample: for url "not a url" the error text is
`"url" config value must be a valid url`, which does not contain the claimed
bare substring `url config value must be a valid url`. -/
theorem claim4_counterexample_quoted_field :
    (Parse [("url", "not a url")]).2 =
      some "\"url\" config value must be a valid url" ∧
    ¬ ContainsSubstr "\"url\" config value must be a valid url"
        "url config value must be a valid url" := by decide

/-- C4 (amended): the url rule applies only to a non-empty url: a non-empty
syntactically invalid url makes Parse fail with an error containing
`"url" config value must be a valid url`, while an empty url produces the
required violation and never the url violation. -/
theorem claim4_amended_invalid_url (cfg : List (String × String))
    (h1 : getKey cfg ConfigKeyURL ≠ "")
    (h2 : isValidURL (getKey cfg ConfigKeyURL) = false) :
    (∃ e, (Parse cfg).2 = some e ∧
      ContainsSubstr e "\"url\" config value must be a valid url") ∧
    (∀ c : Config, c.URL = "" →
      ("URL", Tag.required) ∈ fieldErrors c ∧ ("URL", Tag.url) ∉ fieldErrors c) := by
  constructor
  · refine parse_fails_with cfg ?_
    rw [violationMessages_eq]
    have hurl : (rawConfig cfg).URL = getKey cfg ConfigKeyURL := rfl
    simp [hurl, h1, h2, msgInvalidURL]
  · intro c hc
    constructor
    · unfold fieldErrors
      simp [hc]
    · intro hmem
      by_cases h3 : c.Table.length ≤ 63 <;> by_cases h4 : c.Key.length ≤ 63 <;>
        simp_all [fieldErrors]

/-- C4 witness: the raw input with url "not a url". -/
theorem claim4_amended_invalid_url_witness :
    getKey [("url", "not a url")] ConfigKeyURL ≠ "" ∧
    isValidURL (getKey [("url", "not a url")] ConfigKeyURL) = false ∧
    ((∃ e, (Parse [("url", "not a url")]).2 = some e ∧
      ContainsSubstr e "\"url\" config value must be a valid url") ∧
    (∀ c : Config, c.URL = "" →
      ("URL", Tag.required) ∈ fieldErrors c ∧ ("URL", Tag.url) ∉ fieldErrors c)) :=
  ⟨by decide, by decide, claim4_amended_invalid_url _ (by decide) (by decide)⟩

/-- C5 counterexample: with a valid url and a table of length 64 the error
text is `"table" config value is too long`, which does not contain the
claimed bare substring `table config value is too long`. -/
theorem claim5_counterexample_quoted_field :
    (Parse [("url", "https://example.com"),
            ("table", String.mk (List.replicate 64 'a'))]).2 =
      some "\"table\" config value is too long" ∧
    ¬ ContainsSubstr "\"table\" config value is too long"
        "table config value is too long" := by decide

/-- C5 (amended): the 63-character limit is an inclusive boundary: with a
valid non-empty url, table and key of length at most 63 (in particular
exactly 63) parse successfully, while length 64 fails with an error
containing `"table" config value is too long` (resp.
`"key" config value is too long`). -/
theorem claim5_amended_length_boundary (cfg : List (String × String))
    (h1 : getKey cfg ConfigKeyURL ≠ "")
    (h2 : isValidURL (getKey cfg ConfigKeyURL) = true) :
    ((getKey cfg ConfigKeyTable).length ≤ 63 →
      (getKey cfg ConfigKeyKey).length ≤ 63 → (Parse cfg).2 = none) ∧
    ((getKey cfg ConfigKeyTable).length = 64 →
      ∃ e, (Parse cfg).2 = some e ∧
        ContainsSubstr e "\"table\" config value is too long") ∧
    ((getKey cfg ConfigKeyKey).length = 64 →
      ∃ e, (Parse cfg).2 = some e ∧
        ContainsSubstr e "\"key\" config value is too long") := by
  have hurl : (rawConfig cfg).URL = getKey cfg ConfigKeyURL := rfl
  have htab : (rawConfig cfg).Table = getKey cfg ConfigKeyTable := rfl
  have hkey : (rawConfig cfg).Key = getKey cfg ConfigKeyKey := rfl
  refine ⟨?_, ?_, ?_⟩
  · intro ht hk
    have hnone : violationMessages (rawConfig cfg) = [] := by
      refine violationMessages_nil _ ?_ ?_ ?_ ?_ <;>
        simp [hurl, htab, hkey, h1, h2, ht, hk]
    rw [parse_ok cfg hnone]
  · intro ht
    refine parse_fails_with cfg ?_
    rw [violationMessages_eq]
    have ht2 : ¬ (rawConfig cfg).Table.length ≤ 63 := by
      rw [htab, ht]; omega
    simp [hurl, h1, h2, ht2, msgTooLongTable]
  · intro hk
    refine parse_fails_with cfg ?_
    rw [violationMessages_eq]
    have hk2 : ¬ (rawConfig cfg).Key.length ≤ 63 := by
      rw [hkey, hk]; omega
    simp [hurl, h1, h2, hk2, msgTooLongKey]

/-- C5 witness: a valid url with a table of exactly 63 and, in the failing
conjuncts, instantiable lengths. -/
theorem claim5_amended_length_boundary_witness :
    getKey [("url", "https://example.com"),
            ("table", String.mk (List.replicate 63 'a'))] ConfigKeyURL ≠ "" ∧
    isValidURL (getKey [("url", "https://example.com"),
            ("table", String.mk (List.replicate 63 'a'))] ConfigKeyURL) = true ∧
    (Parse [("url", "https://example.com"),
            ("table", String.mk (List.replicate 63 'a'))]).2 = none :=
  ⟨by decide, by decide,
    (claim5_amended_length_boundary
      [("url", "https://example.com"), ("table", String.mk (List.replicate 63 'a'))]
      (by decide) (by decide)).1 (by decide) (by decide)⟩

/-- C6: the violation messages always form a sublist of the canonical
field-ordered message list — url (required, then url) before table before
key, the struct declaration order — so any simultaneous violations are
reported in that order; Validate is a pure function of the Config, so the
order is identical on every call with the same input. -/
theorem claim6_message_order (c : Config) :
    List.Sublist (violationMessages c)
      [msgRequiredURL, msgInvalidURL, msgTooLongTable, msgTooLongKey] := by
  rw [violationMessages_eq]
  have hA : List.Sublist
      (if c.URL = "" then [msgRequiredURL]
       else if isValidURL c.URL then [] else [msgInvalidURL])
      [msgRequiredURL, msgInvalidURL] := by
    split
    · simp
    · split <;> simp
  have hB : List.Sublist (if c.Table.length ≤ 63 then [] else [msgTooLongTable])
      [msgTooLongTable] := by
    split <;> simp
  have hC : List.Sublist (if c.Key.length ≤ 63 then [] else [msgTooLongKey])
      [msgTooLongKey] := by
    split <;> simp
  simpa using List.Sublist.append hA (List.Sublist.append hB hC)

/-- C7 counterexample: Parse performs no trimming: for the raw table value
" t " the parsed Table field is " t ", not the trimmed "t". -/
theorem claim7_counterexample_no_trimming :
    (Parse [("url", "https://example.com"), ("table", " t "), ("key", "k")]).1.Table =
      " t " ∧
    trimStr " t " = "t" ∧
    (Parse [("url", "https://example.com"), ("table", " t "), ("key", "k")]).1.Table ≠
      trimStr " t " := by decide

/-- C7 (amended): for every raw input with a syntactically valid non-empty
url and table and key of length at most 63, Parse succeeds and returns the
Configuration whose fields equal the raw input values verbatim — no
trimming is applied. -/
theorem claim7_amended_identity_roundtrip (cfg : List (String × String))
    (h1 : getKey cfg ConfigKeyURL ≠ "")
    (h2 : isValidURL (getKey cfg ConfigKeyURL) = true)
    (h3 : (getKey cfg ConfigKeyTable).length ≤ 63)
    (h4 : (getKey cfg ConfigKeyKey).length ≤ 63) :
    Parse cfg =
      (Config.mk (getKey cfg ConfigKeyURL) (getKey cfg ConfigKeyTable)
        (getKey cfg ConfigKeyKey), none) := by
  have hnone : violationMessages (rawConfig cfg) = [] :=
    violationMessages_nil _ h1 h2 h3 h4
  rw [parse_ok cfg hnone]
  rfl

/-- C7 witness: a concrete fully valid raw input taken from the spec. -/
theorem claim7_amended_identity_roundtrip_witness :
    getKey [("url", "https://materialize.example.com"), ("table", "t1"),
        ("key", "k1")] ConfigKeyURL ≠ "" ∧
    Parse [("url", "https://materialize.example.com"), ("table", "t1"), ("key", "k1")] =
      (Config.mk "https://materialize.example.com" "t1" "k1", none) :=
  ⟨by decide,
    claim7_amended_identity_roundtrip
      [("url", "https://materialize.example.com"), ("table", "t1"), ("key", "k1")]
      (by decide) (by decide) (by decide) (by decide)⟩

/-- C8: Parse is a pure function of the values at the keys url, table and
key: two raw mappings agreeing on those three keys (an absent key reading as
"") produce identical results, so unrecognized keys never influence the
outcome; determinism across calls is reflexivity of the function. -/
theorem claim8_depends_only_on_recognized_keys (cfg₁ cfg₂ : List (String × String))
    (hu : getKey cfg₁ ConfigKeyURL = getKey cfg₂ ConfigKeyURL)
    (ht : getKey cfg₁ ConfigKeyTable = getKey cfg₂ ConfigKeyTable)
    (hk : getKey cfg₁ ConfigKeyKey = getKey cfg₂ ConfigKeyKey) :
    Parse cfg₁ = Parse cfg₂ := by
  have hraw : rawConfig cfg₁ = rawConfig cfg₂ := by
    unfold rawConfig
    rw [hu, ht, hk]
  unfold Parse
  rw [hraw]

/-- C8 witness: an unrecognized key does not change the result. -/
theorem claim8_depends_only_on_recognized_keys_witness :
    getKey [("url", "https://example.com"), ("unrecognized", "x")] ConfigKeyURL =
      getKey [("url", "https://example.com")] ConfigKeyURL ∧
    Parse [("url", "https://example.com"), ("unrecognized", "x")] =
      Parse [("url", "https://example.com")] :=
  ⟨by decide,
    claim8_depends_only_on_recognized_keys _ _ (by decide) (by decide) (by decide)⟩

/-- C9: whenever validation fails, Parse returns the zero-value Config — all
three fields empty — alongside the error, never the record built from the
raw input. -/
theorem claim9_zero_config_on_error (cfg : List (String × String)) (e : String)
    (h : (Parse cfg).2 = some e) :
    (Parse cfg).1 = Config.mk "" "" "" := by
  rcases hv : (rawConfig cfg).Validate with _ | e2
  · simp [Parse, hv] at h
  · simp [Parse, hv]

/-- C9 witness: the empty raw input fails and yields the zero Config. -/
theorem claim9_zero_config_on_error_witness :
    (Parse []).2 = some "\"url\" config value must be set" ∧
    (Parse []).1 = Config.mk "" "" "" :=
  ⟨by decide,
    claim9_zero_config_on_error [] "\"url\" config value must be set" (by decide)⟩

/-- C10: Validate errs exactly when one of the four field rules is violated;
its translator-missing and registration-failure branches are unreachable for
every input: the "en" translator is found, registration succeeds, and
Validate coincides with the rules-only validation. -/
theorem claim10_validate_iff_rule_violated (c : Config) :
    getTranslator "en" = some ⟨[]⟩ ∧
    registerTranslations ⟨[]⟩ = Except.ok theTranslator ∧
    c.Validate = validateRules c ∧
    ((c.Validate).isSome ↔
      (c.URL = "" ∨ (c.URL ≠ "" ∧ isValidURL c.URL = false) ∨
        ¬ c.Table.length ≤ 63 ∨ ¬ c.Key.length ≤ 63)) := by
  refine ⟨rfl, rfl, rfl, ?_⟩
  rw [Validate_eq, validateRules_eq]
  by_cases h1 : c.URL = "" <;> by_cases h2 : isValidURL c.URL <;>
    by_cases h3 : c.Table.length ≤ 63 <;> by_cases h4 : c.Key.length ≤ 63 <;>
    simp [violationMessages_eq, h1, h2, h3, h4]

end Materialize
